import Mathlib

/-!
Shallow embedding of the multi-provider LLM orchestration layer of the
document-intelligence pipeline (source files: src/orchestrator.py and
src/orchestrator_tier3.py).

Python JSON values (the output of json.loads and the entries of extraction
dictionaries) are modelled by the inductive type JVal; Python dicts are
modelled as insertion-ordered association lists.  Remote provider calls and
the secondary judge call are effectful; they are modelled by explicit
outcome parameters (an oracle per provider), and code that can raise a
Python exception is modelled in the Except monad, so that a value of the
form Except.ok expresses that the Python code returns without raising.
The orchestrator entry points are total Lean functions: their totality is
the formal counterpart of the source's catch-all exception handling, under
which no transport-level error escapes to the caller.
-/

/-- Python JSON value, as produced by json.loads: null, bool, number
(int and float are collapsed into one rational-valued constructor,
abstracting binary floating point as exact arithmetic), string, array,
object. -/
inductive JVal where
  | null
  | bool (b : Bool)
  | num (q : ℚ)
  | str (s : String)
  | list (elems : List JVal)
  | obj (entries : List (String × JVal))

/-- Structural equality of JSON values, modelling Python == on the values
stored in extraction dicts.  (Python additionally identifies True with 1
and False with 1.0 across types; no verified property counts a boolean
against a number, so structural equality is the faithful fragment.) -/
def JVal.beq : JVal → JVal → Bool
  | .null, .null => true
  | .bool a, .bool b => a == b
  | .num a, .num b => a == b
  | .str a, .str b => a == b
  | .list xs, .list ys => beqList xs ys
  | .obj xs, .obj ys => beqObj xs ys
  | _, _ => false
where
  beqList : List JVal → List JVal → Bool
    | [], [] => true
    | x :: xs, y :: ys => JVal.beq x y && beqList xs ys
    | _, _ => false
  beqObj : List (String × JVal) → List (String × JVal) → Bool
    | [], [] => true
    | (k, v) :: xs, (l, w) :: ys => k == l && JVal.beq v w && beqObj xs ys
    | _, _ => false

instance : BEq JVal := ⟨JVal.beq⟩

/-- A Python dict mapping field names to JSON values, in insertion order. -/
abbrev Fields := List (String × JVal)

/-- Python isinstance(v, (int, float)).  Note that Python bool is a
subclass of int, so booleans satisfy this test as well. -/
def JVal.isNumeric : JVal → Bool
  | .num _ => true
  | .bool _ => true
  | _ => false

/-- Numeric value of a Python number as used by sum(): True counts as 1
and False as 0. -/
def JVal.toQ : JVal → ℚ
  | .num q => q
  | .bool b => if b then 1 else 0
  | _ => 0

/-- Python is None test on a stored JSON value. -/
def JVal.isNull : JVal → Bool
  | .null => true
  | _ => false

/-- Python hashability of a JSON value: lists and dicts are unhashable,
everything else (None, bool, numbers, strings) is hashable. -/
def JVal.isHashable : JVal → Bool
  | .list _ => false
  | .obj _ => false
  | _ => true

/-- First-occurrence deduplication, used to model iterating over a Python
set built from a list (Python set iteration order is hash-dependent and
unspecified; we fix first-occurrence order, and no verified property
depends on this order). -/
def dedupFirst {α : Type} [BEq α] (l : List α) : List α :=
  l.foldl (fun acc a => if acc.contains a then acc else acc.concat a) []

/-- Substring test on character lists (helper for pySubstr). -/
def charsContain (needle : List Char) : List Char → Bool
  | [] => needle.isEmpty
  | c :: t => needle.isPrefixOf (c :: t) || charsContain needle t

/-- Python needle in hay on strings: substring containment. -/
def pySubstr (needle hay : String) : Bool :=
  charsContain needle.data hay.data

/-- Python str.lower(), character by character. -/
def pyLower (s : String) : String :=
  String.mk (s.data.map Char.toLower)

namespace FieldMerger

/-- Counter(values).most_common(1)[0][0]: the most frequent value, with
ties broken by first insertion into the Counter, which is first occurrence
in values (most_common sorts stably by descending count, and Counter keys
are kept in first-insertion order).  Modelled as a left fold keeping the
current best and replacing it only on a strictly greater count; the strict
comparison never lets a later occurrence of an already-seen value, nor a
later value of equal count, displace the incumbent, so the fold returns
exactly the first-encountered value of maximal multiplicity. -/
def plurality (values : List JVal) : JVal :=
  match values with
  | [] => JVal.null
  | u :: us => us.foldl (fun best v =>
      if values.count best < values.count v then v else best) u

/-- Per-field merge rule of FieldMerger.merge_extractions
(orchestrator_tier3.py lines 52-81), applied to the non-null values
collected for one key.  An empty list yields None (merged[key] = None).
Otherwise dispatch on the type of the first value: numeric — including
bool, by the Python isinstance subclass rule — takes
sum(values)/len(values), which raises TypeError when a non-numeric value
is mixed in; list takes the union via list(set(...)) of the list-typed
contributions (non-list values are silently skipped by the extend loop),
raising TypeError on unhashable elements; string takes the Counter
plurality vote, which raises TypeError if an unhashable value is present;
anything else takes the first value unchanged. -/
def mergeFieldValues (values : List JVal) : Except String JVal :=
  match values with
  | [] => .ok JVal.null
  | sample :: _ =>
    if sample.isNumeric then
      if values.all (fun v => v.isNumeric) then
        .ok (.num ((values.map JVal.toQ).sum / (values.length : ℚ)))
      else .error "TypeError: unsupported operand type for +"
    else
      match sample with
      | .list _ =>
        let allItems := (values.filterMap (fun v =>
          match v with | .list xs => some xs | _ => none)).flatten
        if allItems.all (fun v => v.isHashable) then
          .ok (.list (dedupFirst allItems))
        else .error "TypeError: unhashable type"
      | .str _ =>
        if values.all (fun v => v.isHashable) then .ok (plurality values)
        else .error "TypeError: unhashable type"
      | _ => .ok sample

/-- values = [r.get(key) for r in results if r.get(key) is not None]: the
non-null contributions for one key, in result order (a JSON null loads to
Python None, so both a missing key and a null value are filtered out). -/
def fieldValues (results : List Fields) (key : String) : List JVal :=
  results.filterMap (fun r =>
    match (r.find? (fun kv => kv.1 == key)).map (fun kv => kv.2) with
    | some v => if v.isNull then none else some v
    | none => none)

/-- FieldMerger.merge_extractions (orchestrator_tier3.py lines 28-84).
Zero results return an empty dict; exactly one result is returned
unchanged; otherwise every key in the union of the key sets is merged by
mergeFieldValues (the Python loop raises, modelled by Except.error, as
soon as one key does). -/
def merge_extractions (results : List Fields) : Except String Fields :=
  match results with
  | [] => .ok []
  | [r] => .ok r
  | _ =>
    let allKeys := dedupFirst ((results.map (fun r => r.map Prod.fst)).flatten)
    allKeys.mapM (fun key =>
      (mergeFieldValues (fieldValues results key)).map (fun v => (key, v)))

end FieldMerger

namespace ValidationAgent

/-- Reason strings returned by validate_classification; the low-confidence
reason carries the raw confidence instead of the Python-formatted
two-decimal string, which is the only formatting this embedding
abstracts. -/
inductive CReason where
  | lowConfidence (confidence : ℚ)
  | classificationUnknown
  | validInvoice
  | missingInvoiceKeywords
  | validClassification
deriving DecidableEq

/-- Keyword list for the invoice lexical guard (orchestrator.py line 48). -/
def invoiceKeywords : List String :=
  ["invoice", "bill", "payment", "total", "amount", "$"]

/-- ValidationAgent.validate_classification (orchestrator.py lines 32-54):
reject below the 0.7 confidence threshold; reject the "unknown" label;
for "invoice", require one of the signature keywords to occur in the
lowercased text; accept anything else. -/
def validate_classification (text classification : String) (confidence : ℚ) :
    Bool × CReason :=
  if confidence < 7/10 then (false, .lowConfidence confidence)
  else if classification == "unknown" then (false, .classificationUnknown)
  else
    let textLower := pyLower text
    if classification == "invoice" then
      if invoiceKeywords.any (fun k => pySubstr k textLower) then
        (true, .validInvoice)
      else (false, .missingInvoiceKeywords)
    else (true, .validClassification)

/-- Outcome of the secondary judge call made by validate_extraction: ok
carries the parsed judge verdict after the .get defaults of
orchestrator.py lines 100-102 (is_valid defaulting to False,
quality_score to 0.0), err stands for any exception raised by the call or
by parsing its reply. -/
inductive JudgeOutcome where
  | ok (is_valid : Bool) (quality_score : ℚ) (reason : String)
  | err
deriving DecidableEq

/-- ValidationAgent.validate_extraction (orchestrator.py lines 56-112).
The guard rejects when the extracted dict has fewer than 3 entries (the
Python test is on len(extracted_data), the number of keys, with the
not extracted_data disjunct subsumed by it).  Otherwise the judge verdict
decides: accepted when is_valid or quality_score > 0.6; if the judge call
raised, accept by default.  The third component models the
suggested-improvements dict returned on a successful judge call. -/
def validate_extraction (text : String) (extracted_data : Fields)
    (doc_type : String) (judge : JudgeOutcome) :
    Bool × String × Option (Bool × ℚ × String) :=
  if extracted_data.length < 3 then (false, "Too few fields extracted", none)
  else
    match judge with
    | .ok is_valid quality_score reason =>
      ((is_valid || decide (quality_score > 6/10)), reason,
        some (is_valid, quality_score, reason))
    | .err => (true, "Validation error, assuming OK", none)

/-- Number of entries of an extraction dict whose value is non-null (the
quantity the specification's minimum-field guard speaks about). -/
def nonNullCount (d : Fields) : Nat :=
  (d.filter (fun kv => !kv.2.isNull)).length

end ValidationAgent

namespace LLMOrchestrator

/-- Outcome of one provider attempt inside the fallback loop: the provider
is missing from self.clients (skipped without being invoked), the adapter
raised (any transport-level error: unreachable, malformed reply, content
blocked, timeout), or the adapter returned a value. -/
inductive Attempt (α : Type) where
  | notInClients
  | exn
  | result (r : α)

/-- The attempt leads the loop to continue to the next provider: skipped,
raised, or returned a value the validator rejects. -/
def attemptContinues {α : Type} (validate : α → Bool) : Attempt α → Prop
  | .result r => validate r = false
  | _ => True

/-- Whether the attempt actually invoked the provider adapter (everything
except the not-in-clients skip). -/
def invokedAttempt {α : Type} : Attempt α → Bool
  | .notInClients => false
  | _ => true

/-- LLMOrchestrator.classify_with_fallback (orchestrator.py lines
163-193), with the per-provider adapter behaviour supplied as an oracle
mapping provider id to an Attempt carrying (doc_type, confidence).
Providers are tried in priority order; a result accepted by
validate_classification returns immediately with the provider id; the
exhausted loop returns the ("unknown", 0.0, "none") sentinel.  Totality
of this function is the formal form of the catch-all except around each
attempt. -/
def classify_with_fallback (text : String)
    (behave : String → Attempt (String × ℚ)) :
    List String → String × ℚ × String
  | [] => ("unknown", 0, "none")
  | p :: rest =>
    match behave p with
    | .notInClients => classify_with_fallback text behave rest
    | .exn => classify_with_fallback text behave rest
    | .result r =>
      if (ValidationAgent.validate_classification text r.1 r.2).1 then
        (r.1, r.2, p)
      else classify_with_fallback text behave rest

/-- Ghost instrumentation of classify_with_fallback: the list of providers
whose adapter is actually invoked (_classify_single called), in order. -/
def classifyInvoked (text : String)
    (behave : String → Attempt (String × ℚ)) : List String → List String
  | [] => []
  | p :: rest =>
    match behave p with
    | .notInClients => classifyInvoked text behave rest
    | .exn => p :: classifyInvoked text behave rest
    | .result r =>
      if (ValidationAgent.validate_classification text r.1 r.2).1 then [p]
      else p :: classifyInvoked text behave rest

/-- LLMOrchestrator.extract_with_fallback (orchestrator.py lines 261-291):
same loop shape as classification, with validate_extraction as the
validator; the judge oracle gives the outcome of the one judge call made
while validating that provider's result.  The exhausted loop returns the
({}, "none") sentinel. -/
def extract_with_fallback (text docType : String)
    (behave : String → Attempt Fields)
    (judge : String → ValidationAgent.JudgeOutcome) :
    List String → Fields × String
  | [] => ([], "none")
  | p :: rest =>
    match behave p with
    | .notInClients => extract_with_fallback text docType behave judge rest
    | .exn => extract_with_fallback text docType behave judge rest
    | .result d =>
      if (ValidationAgent.validate_extraction text d docType (judge p)).1 then
        (d, p)
      else extract_with_fallback text docType behave judge rest

/-- Ghost instrumentation of extract_with_fallback: the providers whose
adapter is actually invoked, in order. -/
def extractInvoked (text docType : String)
    (behave : String → Attempt Fields)
    (judge : String → ValidationAgent.JudgeOutcome) :
    List String → List String
  | [] => []
  | p :: rest =>
    match behave p with
    | .notInClients => extractInvoked text docType behave judge rest
    | .exn => p :: extractInvoked text docType behave judge rest
    | .result d =>
      if (ValidationAgent.validate_extraction text d docType (judge p)).1 then
        [p]
      else p :: extractInvoked text docType behave judge rest

end LLMOrchestrator

namespace Tier3Orchestrator

/-- Outcome of one parallel extraction future in ensemble_extract: the
future raised, or it returned an extraction dict. -/
inductive FutOutcome where
  | exn
  | ok (fields : Fields)

/-- The collection loop of Tier3Orchestrator.ensemble_extract
(orchestrator_tier3.py lines 244-255) over the completed futures in
completion order: a raised future contributes nothing; a returned dict is
kept, paired with its provider, only when it is truthy and non-empty
(if result and len(result) > 0, equivalent to non-emptiness for a dict). -/
def ensembleCollected (completions : List (String × FutOutcome)) :
    List (String × Fields) :=
  completions.filterMap (fun pc =>
    match pc.2 with
    | .ok f => if f.length > 0 then some (pc.1, f) else none
    | .exn => none)

/-- Tier3Orchestrator.ensemble_extract (orchestrator_tier3.py lines
225-273), over the list of completed futures in completion order, one
future per initialized client (the as_completed order is an arbitrary
interleaving, so every property is quantified over all completion lists).
The ThreadPoolExecutor at line 238 is constructed with
max_workers = len(self.clients) outside any try/except, and CPython
raises an uncaught ValueError when that count is zero, so an empty
completion list — the zero-clients case — propagates that error to the
caller.  With at least one client but no successful non-empty result the
function returns ({}, []); otherwise it merges the kept results and
returns them with the contributing providers.  The append to the
extraction history is a side effect outside the merge result and is not
modelled. -/
def ensemble_extract (completions : List (String × FutOutcome)) :
    Except String (Fields × List String) :=
  if completions.isEmpty then
    .error "ValueError: max_workers must be greater than 0"
  else
    let results := (ensembleCollected completions).map (fun pf => pf.2)
    let providersUsed := (ensembleCollected completions).map (fun pf => pf.1)
    if results.isEmpty then .ok ([], [])
    else
      (FieldMerger.merge_extractions results).map (fun merged =>
        (merged, providersUsed))

end Tier3Orchestrator

section MergerTheorems

open FieldMerger

/-- A left fold that replaces its accumulator exactly on a strictly larger
f-value splits its input into a prefix of strictly smaller f-values, the
returned element, and a suffix of no larger f-values: it returns the
first-encountered maximiser of f. -/
theorem foldl_pickFirstMax {α : Type} (f : α → ℕ) :
    ∀ (us : List α) (u : α), ∃ l₁ l₂,
      u :: us = l₁ ++ (us.foldl (fun b v => if f b < f v then v else b) u) :: l₂ ∧
      (∀ v ∈ l₁, f v < f (us.foldl (fun b v => if f b < f v then v else b) u)) ∧
      ∀ v ∈ l₂, f v ≤ f (us.foldl (fun b v => if f b < f v then v else b) u) := by
  intro us
  induction us with
  | nil =>
    intro u
    exact ⟨[], [], rfl, by simp, by simp⟩
  | cons w us ih =>
    intro u
    simp only [List.foldl_cons]
    by_cases h : f u < f w
    · simp only [if_pos h]
      obtain ⟨l₁, l₂, heq, h₁, h₂⟩ := ih w
      refine ⟨u :: l₁, l₂, ?_, ?_, h₂⟩
      · rw [List.cons_append, heq]
      · intro v hv
        rcases List.mem_cons.mp hv with rfl | hv
        · rcases l₁ with _ | ⟨a, l₁t⟩
          · injection heq with hm _
            exact hm ▸ h
          · injection heq with ha _
            exact lt_trans h (ha ▸ h₁ a (List.mem_cons_self a l₁t))
        · exact h₁ v hv
    · simp only [if_neg h]
      push_neg at h
      obtain ⟨l₁, l₂, heq, h₁, h₂⟩ := ih u
      rcases l₁ with _ | ⟨a, l₁t⟩
      · injection heq with hm hrest
        refine ⟨[], w :: l₂, ?_, by simp, ?_⟩
        · rw [List.nil_append, ← hm, ← hrest]
        · intro v hv
          rcases List.mem_cons.mp hv with rfl | hv
          · exact hm ▸ h
          · exact h₂ v hv
      · injection heq with ha hrest
        refine ⟨u :: w :: l₁t, l₂, ?_, ?_, h₂⟩
        · simp only [List.cons_append]
          exact congrArg (fun l => u :: w :: l) hrest
        · intro v hv
          have hu : f u < f (us.foldl (fun b v => if f b < f v then v else b) u) :=
            ha ▸ h₁ a (List.mem_cons_self a l₁t)
          rcases List.mem_cons.mp hv with rfl | hv
          · exact hu
          · rcases List.mem_cons.mp hv with rfl | hv
            · exact lt_of_le_of_lt h hu
            · exact h₁ v (List.mem_cons_of_mem a hv)

/-- The value m wins the plurality vote over values: m occurs in values at
a position before which every value is strictly less frequent and after
which no value is more frequent — that is, m is the first-encountered
value of maximal multiplicity (the tie-break Counter.most_common
implements). -/
def isPluralityWinner (values : List JVal) (m : JVal) : Prop :=
  ∃ l₁ l₂, values = l₁ ++ m :: l₂ ∧
    (∀ v ∈ l₁, values.count v < values.count m) ∧
    ∀ v ∈ l₂, values.count v ≤ values.count m

/-- On a non-empty value list, plurality returns a plurality winner. -/
theorem plurality_isWinner (values : List JVal) (h : values ≠ []) :
    isPluralityWinner values (plurality values) := by
  cases values with
  | nil => exact absurd rfl h
  | cons u us =>
    simp only [plurality, isPluralityWinner]
    exact foldl_pickFirstMax (fun v => (u :: us).count v) us u

/-- C3: merge_extractions maps the empty result list to the empty mapping
and a singleton result list to its field mapping, unchanged and without
raising. -/
theorem merge_trivial_cases :
    FieldMerger.merge_extractions [] = .ok ([] : Fields) ∧
    ∀ r : Fields, FieldMerger.merge_extractions [r] = .ok r :=
  ⟨rfl, fun _ => rfl⟩

/-- C5 (counterexample): a field whose non-null contributions are the
booleans [True, True] has first non-null contribution True, yet the merged
value is the number 1 (Python bool is a subclass of int, so the
isinstance(sample_value, (int, float)) dispatch sends booleans to the
averaging branch and sum([True, True])/2 evaluates to 1.0), not the
boolean True the claim promises. -/
theorem merge_bool_field_counterexample :
    FieldMerger.fieldValues [[("k", JVal.bool true)], [("k", JVal.bool true)]] "k"
        = [JVal.bool true, JVal.bool true] ∧
    FieldMerger.merge_extractions [[("k", JVal.bool true)], [("k", JVal.bool true)]]
        = .ok [("k", JVal.num 1)] ∧
    JVal.num 1 ≠ JVal.bool true := by
  refine ⟨rfl, ?_, nofun⟩
  norm_num [merge_extractions, mergeFieldValues, fieldValues, dedupFirst,
    List.mapM, List.mapM.loop, List.filterMap_cons, List.find?_cons,
    Functor.map, Except.map, JVal.isNumeric, JVal.toQ, JVal.isNull]

/-- C5 (amended): booleans count as numeric under Python's isinstance
subclass rule and are therefore merged by the arithmetic-mean branch
(True as 1, False as 0); only a field whose first non-null value is
neither numeric-nor-boolean, nor a list, nor a string — e.g. a nested
JSON object — is merged to its first non-null contribution unchanged. -/
theorem merge_default_branch_amended :
    (∀ (vs : List JVal) (entries : List (String × JVal)),
        vs.head? = some (JVal.obj entries) →
        FieldMerger.mergeFieldValues vs = .ok (JVal.obj entries)) ∧
    FieldMerger.merge_extractions
        [[("k", JVal.bool true)], [("k", JVal.bool false)], [("k", JVal.bool true)]]
        = .ok [("k", JVal.num (2/3))] := by
  constructor
  · intro vs entries hhead
    cases vs with
    | nil => exact absurd hhead (by simp)
    | cons sample tail =>
      have hs : sample = JVal.obj entries := by simpa using hhead
      subst hs
      rfl
  · norm_num [merge_extractions, mergeFieldValues, fieldValues, dedupFirst,
      List.mapM, List.mapM.loop, List.filterMap_cons, List.find?_cons,
      Functor.map, Except.map, JVal.isNumeric, JVal.toQ, JVal.isNull]

/-- Witness for merge_default_branch_amended at a concrete input. -/
theorem merge_default_branch_amended_witness :
    FieldMerger.mergeFieldValues [JVal.obj [("inner", JVal.num 5)]]
      = .ok (JVal.obj [("inner", JVal.num 5)]) :=
  merge_default_branch_amended.1 [JVal.obj [("inner", JVal.num 5)]]
    [("inner", JVal.num 5)] rfl

/-- C8: a field whose non-null contributions are all numeric merges to the
arithmetic mean of those contributions; in particular [10, 20, 30] merges
to 20. -/
theorem merge_numeric_mean :
    (∀ vs : List JVal, vs ≠ [] → (∀ v ∈ vs, v.isNumeric = true) →
        FieldMerger.mergeFieldValues vs
          = .ok (.num ((vs.map JVal.toQ).sum / (vs.length : ℚ)))) ∧
    FieldMerger.merge_extractions
        [[("x", JVal.num 10)], [("x", JVal.num 20)], [("x", JVal.num 30)]]
      = .ok [("x", JVal.num 20)] := by
  constructor
  · intro vs hne hall
    cases vs with
    | nil => exact absurd rfl hne
    | cons sample tail =>
      simp only [mergeFieldValues]
      rw [if_pos (hall sample (List.mem_cons_self sample tail)),
        if_pos (List.all_eq_true.mpr hall)]
  · norm_num [merge_extractions, mergeFieldValues, fieldValues, dedupFirst,
      List.mapM, List.mapM.loop, List.filterMap_cons, List.find?_cons,
      Functor.map, Except.map, JVal.isNumeric, JVal.toQ, JVal.isNull]

/-- Witness for merge_numeric_mean at the input named by the claim. -/
theorem merge_numeric_mean_witness :
    FieldMerger.mergeFieldValues [JVal.num 10, JVal.num 20, JVal.num 30]
      = .ok (JVal.num 20) := by
  have h := merge_numeric_mean.1 [JVal.num 10, JVal.num 20, JVal.num 30]
    (by simp) (by simp [JVal.isNumeric])
  rw [h]
  norm_num [JVal.toQ]

/-- C9: a field whose first non-null contribution is a string merges to a
plurality winner — the most frequent exact value, ties broken in favour of
the first-encountered value — and in particular
["invoice", "invoice", "contract"] merges to "invoice". -/
theorem merge_string_plurality :
    (∀ vs : List JVal, (∃ s, vs.head? = some (JVal.str s)) →
        (∀ v ∈ vs, v.isHashable = true) →
        ∃ m, FieldMerger.mergeFieldValues vs = .ok m ∧ isPluralityWinner vs m) ∧
    FieldMerger.merge_extractions
        [[("t", JVal.str "invoice")], [("t", JVal.str "invoice")],
          [("t", JVal.str "contract")]]
      = .ok [("t", JVal.str "invoice")] := by
  constructor
  · intro vs hstr hhash
    obtain ⟨s, hhead⟩ := hstr
    cases vs with
    | nil => exact absurd hhead (by simp)
    | cons sample tail =>
      have hs : sample = JVal.str s := by simpa using hhead
      subst hs
      refine ⟨plurality (JVal.str s :: tail), ?_,
        plurality_isWinner (JVal.str s :: tail) (by simp)⟩
      have hall : (JVal.str s :: tail).all (fun v => v.isHashable) = true :=
        List.all_eq_true.mpr hhash
      simp [mergeFieldValues, JVal.isNumeric, hall]
  · rfl

/-- Witness for merge_string_plurality at the input named by the claim. -/
theorem merge_string_plurality_witness :
    ∃ m, FieldMerger.mergeFieldValues
        [JVal.str "invoice", JVal.str "invoice", JVal.str "contract"] = .ok m ∧
      isPluralityWinner
        [JVal.str "invoice", JVal.str "invoice", JVal.str "contract"] m :=
  merge_string_plurality.1
    [JVal.str "invoice", JVal.str "invoice", JVal.str "contract"]
    ⟨"invoice", rfl⟩ (by simp [JVal.isHashable])

end MergerTheorems

section ValidationTheorems

open ValidationAgent

/-- C6 (counterexample): an extraction whose three fields are all null has
zero non-null values — fewer than 3 — yet validate_extraction does not
reject it with "Too few fields extracted": the guard tests
len(extracted_data), the number of keys including null-valued ones, so
this result reaches the judge call and is accepted on the judge's
verdict. -/
theorem validation_guard_counterexample :
    ValidationAgent.nonNullCount
        [("a", JVal.null), ("b", JVal.null), ("c", JVal.null)] < 3 ∧
    ValidationAgent.validate_extraction "some document text"
        [("a", JVal.null), ("b", JVal.null), ("c", JVal.null)] "invoice"
        (.ok true 1 "looks accurate")
      = (true, "looks accurate", some (true, 1, "looks accurate")) ∧
    ((true : Bool), "looks accurate", some ((true : Bool), (1 : ℚ), "looks accurate"))
      ≠ ((false : Bool), "Too few fields extracted",
          (none : Option (Bool × ℚ × String))) :=
  ⟨by decide, rfl, by simp⟩

/-- C6 (amended): validate_extraction rejects immediately, with reason
"Too few fields extracted" and independently of the judge oracle (so no
judge call is consulted), exactly when the extracted dict has fewer than
3 entries, entries being counted including null-valued ones. -/
theorem validation_guard_amended (text : String) (d : Fields)
    (docType : String) (h : d.length < 3) :
    ∀ judge, ValidationAgent.validate_extraction text d docType judge
      = (false, "Too few fields extracted", none) := by
  intro judge
  unfold ValidationAgent.validate_extraction
  rw [if_pos h]

/-- Witness for validation_guard_amended at a concrete input. -/
theorem validation_guard_amended_witness :
    ValidationAgent.validate_extraction "doc" [("total", JVal.num 5)] "invoice"
      .err = (false, "Too few fields extracted", none) :=
  validation_guard_amended "doc" [("total", JVal.num 5)] "invoice"
    (by decide) .err

/-- C7: when the extracted dict passes the minimum-field guard and the
judge call raises (any network or parse error), validate_extraction
accepts by default with reason "Validation error, assuming OK": an
internal validation failure never causes rejection. -/
theorem validation_error_accepts (text : String) (d : Fields)
    (docType : String) (h : ¬ d.length < 3) :
    ValidationAgent.validate_extraction text d docType .err
      = (true, "Validation error, assuming OK", none) := by
  unfold ValidationAgent.validate_extraction
  rw [if_neg h]

/-- Witness for validation_error_accepts at a concrete input. -/
theorem validation_error_accepts_witness :
    ValidationAgent.validate_extraction "doc"
      [("invoice_number", JVal.str "A-1"), ("total_amount", JVal.num 500),
        ("vendor_name", JVal.str "Acme")]
      "invoice" .err = (true, "Validation error, assuming OK", none) :=
  validation_error_accepts "doc"
    [("invoice_number", JVal.str "A-1"), ("total_amount", JVal.num 500),
      ("vendor_name", JVal.str "Acme")]
    "invoice" (by decide)

end ValidationTheorems

section FallbackTheorems

open LLMOrchestrator ValidationAgent

/-- Any provider list all of whose attempts continue leaves the
classification loop exhausted, returning the unknown sentinel. -/
theorem classify_exhausted (text : String)
    (behave : String → Attempt (String × ℚ)) :
    ∀ providers : List String,
      (∀ p ∈ providers, attemptContinues
        (fun r => (validate_classification text r.1 r.2).1) (behave p)) →
      classify_with_fallback text behave providers = ("unknown", 0, "none") := by
  intro providers
  induction providers with
  | nil => intro _; rfl
  | cons p rest ih =>
    intro h
    have hrest := ih (fun q hq => h q (List.mem_cons_of_mem p hq))
    have hp := h p (List.mem_cons_self p rest)
    cases hb : behave p with
    | notInClients => simp [classify_with_fallback, hb, hrest]
    | exn => simp [classify_with_fallback, hb, hrest]
    | result r =>
      rw [hb] at hp
      have hp2 : (validate_classification text r.1 r.2).1 = false := hp
      simp [classify_with_fallback, hb, hp2, hrest]

/-- Any provider list all of whose attempts continue leaves the
extraction loop exhausted, returning the empty sentinel. -/
theorem extract_exhausted (text docType : String)
    (behave : String → Attempt Fields) (judge : String → JudgeOutcome) :
    ∀ providers : List String,
      (∀ p ∈ providers, attemptContinues
        (fun d => (validate_extraction text d docType (judge p)).1) (behave p)) →
      extract_with_fallback text docType behave judge providers = ([], "none") := by
  intro providers
  induction providers with
  | nil => intro _; rfl
  | cons p rest ih =>
    intro h
    have hrest := ih (fun q hq => h q (List.mem_cons_of_mem p hq))
    have hp := h p (List.mem_cons_self p rest)
    cases hb : behave p with
    | notInClients => simp [extract_with_fallback, hb, hrest]
    | exn => simp [extract_with_fallback, hb, hrest]
    | result d =>
      rw [hb] at hp
      have hp2 : (validate_extraction text d docType (judge p)).1 = false := hp
      simp [extract_with_fallback, hb, hp2, hrest]

/-- C1: when every configured provider either is skipped as uninitialized,
fails at the adapter level, or has its result rejected by validation, the
fallback orchestrator returns the sentinel — ("unknown", 0, "none") for
classification and ({}, "none") for extraction.  Both entry points are
total functions of the attempt oracle, which is the formal statement that
no transport-level error propagates to the caller as an exception. -/
theorem fallback_exhausted_sentinel (text docType : String)
    (providers : List String)
    (cbehave : String → Attempt (String × ℚ))
    (ebehave : String → Attempt Fields)
    (judge : String → JudgeOutcome)
    (hc : ∀ p ∈ providers, attemptContinues
      (fun r => (validate_classification text r.1 r.2).1) (cbehave p))
    (he : ∀ p ∈ providers, attemptContinues
      (fun d => (validate_extraction text d docType (judge p)).1) (ebehave p)) :
    classify_with_fallback text cbehave providers = ("unknown", 0, "none") ∧
    extract_with_fallback text docType ebehave judge providers = ([], "none") :=
  ⟨classify_exhausted text cbehave providers hc,
    extract_exhausted text docType ebehave judge providers he⟩

/-- Witness for fallback_exhausted_sentinel: three configured providers,
all of whose adapters raise. -/
theorem fallback_exhausted_sentinel_witness :
    classify_with_fallback "doc" (fun _ => Attempt.exn)
        ["openai", "gemini", "ollama"] = ("unknown", 0, "none") ∧
    extract_with_fallback "doc" "invoice" (fun _ => Attempt.exn)
        (fun _ => JudgeOutcome.err) ["openai", "gemini", "ollama"]
      = ([], "none") :=
  fallback_exhausted_sentinel "doc" "invoice" ["openai", "gemini", "ollama"]
    (fun _ => Attempt.exn) (fun _ => Attempt.exn) (fun _ => JudgeOutcome.err)
    (fun _ _ => trivial) (fun _ _ => trivial)

end FallbackTheorems

section FallbackStopTheorems

open LLMOrchestrator ValidationAgent

/-- Once the classification loop reaches a provider whose result the
validator accepts, it returns that result with that provider's id, and
its invocation trace is exactly the invoked part of the preceding
providers followed by the accepting provider. -/
theorem classify_first_accepted (text : String)
    (behave : String → Attempt (String × ℚ)) (p : String)
    (rc : String × ℚ) (post : List String)
    (hp : behave p = .result rc)
    (hacc : (validate_classification text rc.1 rc.2).1 = true) :
    ∀ pre : List String,
      (∀ q ∈ pre, attemptContinues
        (fun r => (validate_classification text r.1 r.2).1) (behave q)) →
      classify_with_fallback text behave (pre ++ p :: post) = (rc.1, rc.2, p) ∧
      classifyInvoked text behave (pre ++ p :: post)
        = pre.filter (fun q => invokedAttempt (behave q)) ++ [p] := by
  intro pre
  induction pre with
  | nil =>
    intro _
    constructor
    · simp [classify_with_fallback, hp, hacc]
    · simp [classifyInvoked, hp, hacc]
  | cons q pre ih =>
    intro h
    have hq := h q (List.mem_cons_self q pre)
    obtain ⟨ih1, ih2⟩ := ih (fun x hx => h x (List.mem_cons_of_mem q hx))
    cases hb : behave q with
    | notInClients =>
      simp [classify_with_fallback, classifyInvoked, hb, ih1, ih2,
        invokedAttempt, List.filter_cons]
    | exn =>
      simp [classify_with_fallback, classifyInvoked, hb, ih1, ih2,
        invokedAttempt, List.filter_cons]
    | result r =>
      rw [hb] at hq
      have hq2 : (validate_classification text r.1 r.2).1 = false := hq
      simp [classify_with_fallback, classifyInvoked, hb, hq2, ih1, ih2,
        invokedAttempt, List.filter_cons]

/-- Once the extraction loop reaches a provider whose result the validator
accepts, it returns that result with that provider's id, and its
invocation trace is exactly the invoked part of the preceding providers
followed by the accepting provider. -/
theorem extract_first_accepted (text docType : String)
    (behave : String → Attempt Fields) (judge : String → JudgeOutcome)
    (p : String) (rd : Fields) (post : List String)
    (hp : behave p = .result rd)
    (hacc : (validate_extraction text rd docType (judge p)).1 = true) :
    ∀ pre : List String,
      (∀ q ∈ pre, attemptContinues
        (fun d => (validate_extraction text d docType (judge q)).1) (behave q)) →
      extract_with_fallback text docType behave judge (pre ++ p :: post)
        = (rd, p) ∧
      extractInvoked text docType behave judge (pre ++ p :: post)
        = pre.filter (fun q => invokedAttempt (behave q)) ++ [p] := by
  intro pre
  induction pre with
  | nil =>
    intro _
    constructor
    · simp [extract_with_fallback, hp, hacc]
    · simp [extractInvoked, hp, hacc]
  | cons q pre ih =>
    intro h
    have hq := h q (List.mem_cons_self q pre)
    obtain ⟨ih1, ih2⟩ := ih (fun x hx => h x (List.mem_cons_of_mem q hx))
    cases hb : behave q with
    | notInClients =>
      simp [extract_with_fallback, extractInvoked, hb, ih1, ih2,
        invokedAttempt, List.filter_cons]
    | exn =>
      simp [extract_with_fallback, extractInvoked, hb, ih1, ih2,
        invokedAttempt, List.filter_cons]
    | result d =>
      rw [hb] at hq
      have hq2 : (validate_extraction text d docType (judge q)).1 = false := hq
      simp [extract_with_fallback, extractInvoked, hb, hq2, ih1, ih2,
        invokedAttempt, List.filter_cons]

/-- C2: for every provider priority order, split as pre ++ p :: post, on
which every provider before p is skipped, fails, or is rejected and p's
result is accepted by the validator, both fallback entry points return
p's result together with p's id, and the instrumented invocation traces
end at p — they equal the invoked part of pre followed by p, so no
provider of post is ever invoked. -/
theorem fallback_stops_after_accept (text docType : String)
    (pre post : List String) (p : String)
    (cbehave : String → Attempt (String × ℚ)) (rc : String × ℚ)
    (ebehave : String → Attempt Fields) (rd : Fields)
    (judge : String → ValidationAgent.JudgeOutcome)
    (hpc : ∀ q ∈ pre, attemptContinues
      (fun r => (validate_classification text r.1 r.2).1) (cbehave q))
    (hc : cbehave p = .result rc)
    (haccC : (validate_classification text rc.1 rc.2).1 = true)
    (hpe : ∀ q ∈ pre, attemptContinues
      (fun d => (validate_extraction text d docType (judge q)).1) (ebehave q))
    (he : ebehave p = .result rd)
    (haccE : (validate_extraction text rd docType (judge p)).1 = true) :
    (classify_with_fallback text cbehave (pre ++ p :: post) = (rc.1, rc.2, p) ∧
      classifyInvoked text cbehave (pre ++ p :: post)
        = pre.filter (fun q => invokedAttempt (cbehave q)) ++ [p]) ∧
    (extract_with_fallback text docType ebehave judge (pre ++ p :: post)
        = (rd, p) ∧
      extractInvoked text docType ebehave judge (pre ++ p :: post)
        = pre.filter (fun q => invokedAttempt (ebehave q)) ++ [p]) :=
  ⟨classify_first_accepted text cbehave p rc post hc haccC pre hpc,
    extract_first_accepted text docType ebehave judge p rd post he haccE pre hpe⟩

/-- Classification oracle for the C2 witness: ollama raises, openai
returns an accepted invoice classification, gemini would return a
contract classification but is never reached. -/
def cbehaveW : String → LLMOrchestrator.Attempt (String × ℚ) := fun q =>
  if q = "ollama" then .exn
  else if q = "openai" then .result ("invoice", 9/10)
  else .result ("contract", 9/10)

/-- Extraction dict returned by openai in the C2 witness. -/
def dW : Fields :=
  [("invoice_number", JVal.str "A-1"), ("total_amount", JVal.num 500),
    ("vendor_name", JVal.str "Acme")]

/-- Extraction oracle for the C2 witness. -/
def ebehaveW : String → LLMOrchestrator.Attempt Fields := fun q =>
  if q = "ollama" then .exn
  else if q = "openai" then .result dW
  else .result []

/-- Judge oracle for the C2 witness: every judge call succeeds and
approves. -/
def judgeW : String → ValidationAgent.JudgeOutcome :=
  fun _ => .ok true (8/10) "well extracted"

/-- Witness for fallback_stops_after_accept: priority order
[ollama, openai, gemini]; ollama raises, openai is accepted, gemini is
never invoked. -/
theorem fallback_stops_after_accept_witness :
    (classify_with_fallback "Invoice total: $500" cbehaveW
        ["ollama", "openai", "gemini"] = ("invoice", 9/10, "openai") ∧
      classifyInvoked "Invoice total: $500" cbehaveW
        ["ollama", "openai", "gemini"] = ["ollama", "openai"]) ∧
    (extract_with_fallback "Invoice total: $500" "invoice" ebehaveW judgeW
        ["ollama", "openai", "gemini"] = (dW, "openai") ∧
      extractInvoked "Invoice total: $500" "invoice" ebehaveW judgeW
        ["ollama", "openai", "gemini"] = ["ollama", "openai"]) := by
  have h := fallback_stops_after_accept "Invoice total: $500" "invoice"
    ["ollama"] ["gemini"] "openai" cbehaveW ("invoice", 9/10) ebehaveW dW judgeW
    (by
      intro q hq
      rcases List.mem_singleton.mp hq with rfl
      simp [cbehaveW, attemptContinues])
    (by simp [cbehaveW])
    (by
      unfold ValidationAgent.validate_classification
      rw [if_neg (by norm_num)]
      decide)
    (by
      intro q hq
      rcases List.mem_singleton.mp hq with rfl
      simp [ebehaveW, attemptContinues])
    (by simp [ebehaveW])
    rfl
  obtain ⟨⟨h1, h2⟩, h3, h4⟩ := h
  refine ⟨⟨by simpa using h1, ?_⟩, by simpa using h3, ?_⟩
  · simpa [cbehaveW, invokedAttempt, List.filter_cons] using h2
  · simpa [ebehaveW, invokedAttempt, List.filter_cons] using h4

end FallbackStopTheorems

section EnsembleTheorems

open Tier3Orchestrator

/-- When every completed future either raised or returned an empty dict,
the collection loop keeps nothing. -/
theorem ensembleCollected_nil_of_no_success
    (completions : List (String × FutOutcome))
    (h : ∀ pc ∈ completions, pc.2 = .exn ∨ pc.2 = .ok []) :
    ensembleCollected completions = [] := by
  induction completions with
  | nil => rfl
  | cons pc rest ih =>
    have hrest := ih (fun x hx => h x (List.mem_cons_of_mem pc hx))
    obtain ⟨pname, oc⟩ := pc
    rcases h (pname, oc) (List.mem_cons_self (pname, oc) rest) with hh | hh <;>
      · simp only at hh
        subst hh
        simpa [ensembleCollected, List.filterMap_cons] using hrest

/-- C4 (counterexample): in the claim's own named case of zero
initialized provider clients — an empty completion list — the program
does not return the empty result: ThreadPoolExecutor(max_workers=0) at
orchestrator_tier3.py line 238 raises ValueError outside any try/except,
so ensemble_extract propagates an exception to the caller instead of
returning ({}, []). -/
theorem ensemble_zero_clients_raises :
    Tier3Orchestrator.ensemble_extract []
        = .error "ValueError: max_workers must be greater than 0" ∧
    Tier3Orchestrator.ensemble_extract []
        ≠ .ok (([], []) : Fields × List String) :=
  ⟨rfl, nofun⟩

/-- C4 (amended): when at least one provider client was initialized — the
completion list is non-empty — and no future both succeeds and returns a
non-empty dict, ensemble_extract returns Except.ok with an empty merged
mapping and an empty contributing-provider list, and no exception reaches
the caller; with zero initialized clients the executor constructor
instead raises an uncaught ValueError. -/
theorem ensemble_no_success_empty_amended
    (completions : List (String × FutOutcome))
    (hne : completions ≠ [])
    (h : ∀ pc ∈ completions, pc.2 = .exn ∨ pc.2 = .ok []) :
    ensemble_extract completions = .ok ([], []) := by
  have hc := ensembleCollected_nil_of_no_success completions h
  have hni : completions.isEmpty = false := by
    cases completions with
    | nil => exact absurd rfl hne
    | cons a l => rfl
  simp [ensemble_extract, hni, hc]

/-- Witness for ensemble_no_success_empty_amended: two raising providers
and one returning an empty dict. -/
theorem ensemble_no_success_empty_amended_witness :
    ensemble_extract [("openai", .exn), ("gemini", FutOutcome.ok []),
      ("ollama", .exn)] = .ok ([], []) :=
  ensemble_no_success_empty_amended _ (by simp) (by
    intro pc hpc
    simp only [List.mem_cons, List.not_mem_nil, or_false] at hpc
    rcases hpc with rfl | rfl | rfl
    exacts [Or.inl rfl, Or.inr rfl, Or.inl rfl])

/-- C10: a future that completes successfully with an empty dict is
treated exactly like a raised future: ensemble_extract computes the same
value whether the provider's entry completed with an empty dict or
raised, and the collection loop keeps nothing for that entry, so the
empty result is excluded from the merge input and the provider's id from
the contributing-provider list. -/
theorem ensemble_empty_result_like_failure
    (pre post : List (String × FutOutcome)) (p : String) :
    ensemble_extract (pre ++ (p, FutOutcome.ok []) :: post)
      = ensemble_extract (pre ++ (p, FutOutcome.exn) :: post) ∧
    ensembleCollected (pre ++ (p, FutOutcome.ok []) :: post)
      = ensembleCollected pre ++ ensembleCollected post := by
  have hc : ensembleCollected (pre ++ (p, FutOutcome.ok []) :: post)
      = ensembleCollected (pre ++ (p, FutOutcome.exn) :: post) := by
    simp [ensembleCollected, List.filterMap_append, List.filterMap_cons]
  have h1 : (pre ++ (p, FutOutcome.ok []) :: post).isEmpty = false := by
    cases pre <;> rfl
  have h2 : (pre ++ (p, FutOutcome.exn) :: post).isEmpty = false := by
    cases pre <;> rfl
  constructor
  · unfold ensemble_extract
    rw [h1, h2, hc]
  · simp [ensembleCollected, List.filterMap_append, List.filterMap_cons]

end EnsembleTheorems
